import Mathlib

/-!
Shallow embedding of the metrics engine of `src/app.py`, an outdoor-advertising
exposure simulator.

Floating-point values are modelled as exact rationals.  A numeric per-row field
that can be missing (pandas `NaN` after `pd.to_numeric(..., errors="coerce")`
and a left merge) is modelled as `Option ℚ`, with `none` standing for `NaN`;
an arithmetic result built from a `NaN` operand is again `none`
(NaN propagation through the formula).  String-valued columns are `String`s,
and the Korean literals below are the exact constants of the source.
-/

/-- Computation mode: the sidebar option named `calc_mode` in the source
(`기본` = default, `디지털 공식 미적용` = no-digital-formula,
`디지털 풀 구좌` = digital-full-slot). -/
inductive Mode where
  | default
  | noDigitalFormula
  | digitalFullSlot
deriving DecidableEq

/-- One row of the merged per-unit table seen by `calculate_metrics_row`.
`rots`/`reach` (the raw `k_rots`/`k_reach`) are always numbers because the
loader applies `fillna(0)` to them; `package_type` is `none` when the package
left-merge found no row (pandas `NaN`, which compares unequal to `"D"` just as
the `row.get(..., 'P')` default does); `stay_time` and `share_of_time` are
`none` when missing (`NaN`). -/
structure MediaRow where
  rots : ℚ
  reach : ℚ
  package_type : Option String
  shelter_type : String
  media_type : String
  stay_time : Option ℚ
  share_of_time : Option ℚ
deriving DecidableEq

/-- The local `time_factor = (max(stay_time - 1, 0) + 30) / 30.0` of the
digital branch of `calculate_metrics_row`. -/
def time_factor (stay_time : ℚ) : ℚ := (max (stay_time - 1) 0 + 30) / 30

/-- Embedding of `calculate_metrics_row` (src/app.py lines 444-478).
The result pair is (`adj_rots`, `adj_reach`); `none` stands for a NaN result,
which arises exactly when the digital formula multiplies by a missing
(`NaN`) `share_of_time` (the source runs `float(row['share_of_time'])` with no
null check, and NaN propagates through the products). -/
def calculate_metrics_row (mode : Mode) (row : MediaRow) : Option ℚ × Option ℚ :=
  if mode = Mode.noDigitalFormula then
    (some row.rots, some row.reach)
  else if row.shelter_type = "관광안내판" ∧ row.media_type = "포스터" then
    (some (row.rots / 2), some (row.reach / 2))
  else if row.package_type.getD "P" = "D" ∨ row.media_type = "디지털" then
    match row.stay_time with
    | some st =>
      let share : Option ℚ := if mode = Mode.digitalFullSlot then some 0.05 else row.share_of_time
      (share.map fun s => time_factor st * row.rots * s * 0.5,
       share.map fun s => time_factor st * row.reach * s * 0.5)
    | none => (some row.rots, some row.reach)
  else
    (some row.rots, some row.reach)

/-- One row of the correction-factor table `factor_df`
(warehouse table `factor_prediction_result`). -/
structure FactorRow where
  quantity : ℤ
  correction_factor : ℚ
deriving DecidableEq

/-- The hard-coded named-package weights (`region_pkg_weights`, also duplicated
as `region_pkg_weights_map` in the displayed-subset block). -/
def region_pkg_weights : List (String × ℚ) :=
  [("강남D", 0.5430), ("서초D", 0.7165), ("이태원D", 0.3311),
   ("종로D", 0.4892), ("종로중구MD", 0.5442)]

/-- Dictionary lookup `region_pkg_weights[selected_package_option]`, `none`
when the package name is not a key. -/
def namedWeightOf (name : String) : Option ℚ :=
  (region_pkg_weights.find? fun p => decide (p.1 = name)).map Prod.snd

/-- `factor_df['quantity'].max()`: `none` on an empty table (pandas `NaN`). -/
def maxQty : List FactorRow → Option ℤ
  | [] => none
  | r :: rs => some ((rs.map FactorRow.quantity).foldl max r.quantity)

/-- Embedding of the correction-factor resolution (src/app.py lines 489-509,
and its verbatim copy for the displayed subset at lines 554-567).
`pkgOpt` is `some name` when `filter_mode == '패키지'` with `name` the selected
package option, else `none`; `n` is the selection size (`total_shelters`
resp. `cur_count`).  An empty table behaves like the source: the exact-match
lookup finds nothing and the factor is 0. -/
def resolve_correction (factor : List FactorRow) (pkgOpt : Option String) (n : ℕ) : ℚ :=
  if n = 0 then 0
  else
    match pkgOpt.bind namedWeightOf with
    | some w => w
    | none =>
      match maxQty factor with
      | none => 0
      | some m =>
        match factor.find? fun r => decide (r.quantity = min (n : ℤ) m) with
        | some r => r.correction_factor
        | none => 0

/-- One row of `final_df` as the Demographic Allocator and the aggregate
metrics read it: the unit id, its raw `reach` column, and the adjusted
`adj_rots`/`adj_reach` columns produced by the Metric Adjuster. -/
structure UnitRow where
  ftr_idn : String
  reach : ℚ
  adj_rots : ℚ
  adj_reach : ℚ
deriving DecidableEq

/-- One row of the `demographics` table in scope (`target_demo`). -/
structure DemoRecord where
  ftr_idn : String
  gender : String
  age : ℤ
  rots : ℚ
  reach : ℚ
deriving DecidableEq

/-- `cur_rots = final_df['adj_rots'].sum()`. -/
def cur_rots (units : List UnitRow) : ℚ := (units.map UnitRow.adj_rots).sum

/-- `cur_reach = final_df['adj_reach'].sum()`. -/
def cur_reach (units : List UnitRow) : ℚ := (units.map UnitRow.adj_reach).sum

/-- `final_cur_reach = cur_reach * cur_correction`. -/
def final_cur_reach (units : List UnitRow) (corr : ℚ) : ℚ := cur_reach units * corr

/-- `freq = (cur_rots / final_cur_reach) if final_cur_reach > 0 else 0`
(src/app.py line 581). -/
def freq (units : List UnitRow) (corr : ℚ) : ℚ :=
  if 0 < final_cur_reach units corr then cur_rots units / final_cur_reach units corr else 0

/-- The per-unit ratio column
`np.where(final_df['reach'] > 0, final_df['adj_reach'] / final_df['reach'], 1.0)`
(src/app.py line 652). -/
def calc_ratio_val (u : UnitRow) : ℚ := if 0 < u.reach then u.adj_reach / u.reach else 1

/-- The ratio joined onto a demographic record by id, with the
`fillna(1.0)` default for a missing join (src/app.py lines 653-656). -/
def ratio_of (units : List UnitRow) (i : String) : ℚ :=
  match units.find? fun u => decide (u.ftr_idn = i) with
  | some u => calc_ratio_val u
  | none => 1

/-- `adj_demo_reach = target_demo['reach'] * target_demo['calc_ratio']`. -/
def adj_demo_reach (units : List UnitRow) (d : DemoRecord) : ℚ :=
  d.reach * ratio_of units d.ftr_idn

/-- `adj_demo_rots = target_demo['rots'] * target_demo['calc_ratio']`. -/
def adj_demo_rots (units : List UnitRow) (d : DemoRecord) : ℚ :=
  d.rots * ratio_of units d.ftr_idn

/-- `gender_summ`: group `target_demo` by gender, sum `adj_demo_reach` within
each group, then multiply each group sum by `cur_correction`
(src/app.py lines 661 and 665). -/
def gender_summ_reach (units : List UnitRow) (demo : List DemoRecord) (corr : ℚ) :
    List (String × ℚ) :=
  ((demo.map DemoRecord.gender).dedup).map fun g =>
    (g, (((demo.filter fun d => decide (d.gender = g)).map (adj_demo_reach units)).sum) * corr)

/-- `age_summ`: the same grouped sums keyed by age bracket
(src/app.py lines 662 and 666). -/
def age_summ_reach (units : List UnitRow) (demo : List DemoRecord) (corr : ℚ) :
    List (ℤ × ℚ) :=
  ((demo.map DemoRecord.age).dedup).map fun a =>
    (a, (((demo.filter fun d => decide (d.age = a)).map (adj_demo_reach units)).sum) * corr)

/-- Concrete row for the missing-share analysis: digital package, stay_time
present, `share_of_time` missing (NaN). -/
def c2row : MediaRow :=
  { rots := 100, reach := 50, package_type := some "D", shelter_type := "shelter-a",
    media_type := "LED", stay_time := some 5, share_of_time := none }

/-- Concrete digitally-packaged row with both stay_time and share present. -/
def c3row : MediaRow :=
  { rots := 1000, reach := 500, package_type := some "D", shelter_type := "shelter-b",
    media_type := "LED", stay_time := some 10, share_of_time := some 0.2 }

/-- Concrete tourist-info-panel poster row that would also qualify for the
digital formula (package `"D"`, stay_time and share present). -/
def c4row : MediaRow :=
  { rots := 1000, reach := 500, package_type := some "D", shelter_type := "관광안내판",
    media_type := "포스터", stay_time := some 10, share_of_time := some 0.2 }

/-- The unit row of the spec's numeric scenario: raw_rots 1000, raw_reach 500,
stay_time 10, share_of_time 0.2, package "D". -/
def scenario_row : MediaRow :=
  { rots := 1000, reach := 500, package_type := some "D", shelter_type := "가로변 쉘터",
    media_type := "디지털", stay_time := some 10, share_of_time := some 0.2 }

/-- Correction table used to exhibit the named-package override next to a
conflicting quantity row. -/
def w5factor : List FactorRow := [⟨3, 0.9⟩]

/-- Correction table whose largest calibrated quantity is 3. -/
def w6factor : List FactorRow := [⟨1, 0.2⟩, ⟨3, 0.7⟩]

/-- Correction table with a gap: no row with quantity 2, although 2 is below
the maximum quantity 4. -/
def w7factor : List FactorRow := [⟨1, 0.2⟩, ⟨4, 0.9⟩]

/-- Single displayed unit used to evaluate the guarded frequency. -/
def w8units : List UnitRow := [⟨"a", 10, 20, 8⟩]

/-- Single displayed unit (raw reach 100, adjusted reach 80) for the
reconciliation witness. -/
def w1units : List UnitRow := [⟨"10001", 100, 200, 80⟩]

/-- Two demographic records of that unit whose reach values sum to its raw
reach (60 + 40 = 100). -/
def w1demo : List DemoRecord := [⟨"10001", "M", 2, 120, 60⟩, ⟨"10001", "F", 3, 80, 40⟩]

/-- Pulling a constant factor out of a list sum. -/
lemma sum_map_mul_const {α : Type} (l : List α) (f : α → ℚ) (c : ℚ) :
    (l.map fun x => f x * c).sum = (l.map f).sum * c := by
  induction l with
  | nil => simp
  | cons x xs ih => simp [ih, add_mul]

/-- Summing a one-point bump over keys that never hit it changes nothing. -/
lemma sum_map_ite_zero {α : Type} [DecidableEq α] (keys : List α) (a : α) (c : ℚ) (g : α → ℚ)
    (hna : a ∉ keys) :
    (keys.map fun k => (if a = k then c else 0) + g k).sum = (keys.map g).sum := by
  induction keys with
  | nil => simp
  | cons b bs ih =>
    have hab : a ≠ b := fun h => hna (h ▸ List.mem_cons_self b bs)
    have hnb : a ∉ bs := fun h => hna (List.mem_cons_of_mem b h)
    simp [if_neg hab, ih hnb]

/-- Summing a one-point bump over duplicate-free keys containing the point
adds the bump exactly once. -/
lemma sum_map_ite_single {α : Type} [DecidableEq α] (keys : List α) (a : α) (c : ℚ) (g : α → ℚ)
    (hnd : keys.Nodup) (ha : a ∈ keys) :
    (keys.map fun k => (if a = k then c else 0) + g k).sum = c + (keys.map g).sum := by
  induction keys with
  | nil => cases ha
  | cons b bs ih =>
    rcases List.mem_cons.mp ha with h | hbs
    · subst h
      have hnb : a ∉ bs := (List.nodup_cons.mp hnd).1
      simp [sum_map_ite_zero bs a c g hnb]
      ring
    · have hab : a ≠ b := by
        rintro rfl
        exact (List.nodup_cons.mp hnd).1 hbs
      have hih := ih (List.nodup_cons.mp hnd).2 hbs
      simp [if_neg hab, hih]
      ring

/-- Partition lemma behind a pandas groupby-sum: when the keys are
duplicate-free and cover every element, the per-key fiber sums add up to the
total sum. -/
lemma sum_fibers {α β : Type} [DecidableEq α] (keys : List α) (key : β → α) (f : β → ℚ)
    (l : List β) (hnd : keys.Nodup) (hc : ∀ x ∈ l, key x ∈ keys) :
    (keys.map fun k => ((l.filter fun x => decide (key x = k)).map f).sum).sum = (l.map f).sum := by
  induction l with
  | nil => simp
  | cons x xs ih =>
    have hx : key x ∈ keys := hc x (List.mem_cons_self x xs)
    have hxs : ∀ y ∈ xs, key y ∈ keys := fun y hy => hc y (List.mem_cons_of_mem x hy)
    have hstep : ∀ k, ((List.filter (fun b => decide (key b = k)) (x :: xs)).map f).sum
        = (if key x = k then f x else 0)
          + ((List.filter (fun b => decide (key b = k)) xs).map f).sum := by
      intro k
      by_cases h : key x = k
      · simp [List.filter_cons, h]
      · simp [List.filter_cons, h]
    calc (keys.map fun k => ((List.filter (fun b => decide (key b = k)) (x :: xs)).map f).sum).sum
        = (keys.map fun k => (if key x = k then f x else 0)
            + ((List.filter (fun b => decide (key b = k)) xs).map f).sum).sum := by
          simp only [hstep]
      _ = f x + (keys.map fun k =>
            ((List.filter (fun b => decide (key b = k)) xs).map f).sum).sum :=
          sum_map_ite_single keys (key x) (f x) _ hnd hx
      _ = f x + (xs.map f).sum := by rw [ih hxs]
      _ = ((x :: xs).map f).sum := by simp

/-- With duplicate-free unit ids, the id lookup behind the ratio join finds
exactly the unit itself. -/
lemma find_unit_of_nodup (units : List UnitRow) (u : UnitRow)
    (hnd : (units.map UnitRow.ftr_idn).Nodup) (hu : u ∈ units) :
    (units.find? fun v => decide (v.ftr_idn = u.ftr_idn)) = some u := by
  induction units with
  | nil => cases hu
  | cons v vs ih =>
    rcases List.mem_cons.mp hu with h | hvs
    · subst h
      rw [List.find?_cons_of_pos]
      simp
    · have hne : v.ftr_idn ≠ u.ftr_idn := by
        intro h
        have hmem : v.ftr_idn ∈ vs.map UnitRow.ftr_idn :=
          h ▸ List.mem_map_of_mem UnitRow.ftr_idn hvs
        exact (List.nodup_cons.mp hnd).1 hmem
      rw [List.find?_cons_of_neg]
      · exact ih (List.nodup_cons.mp hnd).2 hvs
      · simp [hne]

/-- Core of the reconciliation invariant: with duplicate-free unit ids, no
missing joins, demographic reach rows summing to each unit's raw reach, and a
genuinely computed ratio (positive raw reach) on every unit, the allocated
demographic reach sums back to the adjusted aggregate reach. -/
lemma total_adj_demo_reach (units : List UnitRow) (demo : List DemoRecord)
    (hnd : (units.map UnitRow.ftr_idn).Nodup)
    (hjoin : ∀ d ∈ demo, ∃ u ∈ units, u.ftr_idn = d.ftr_idn)
    (hsum : ∀ u ∈ units,
      ((demo.filter fun d => decide (d.ftr_idn = u.ftr_idn)).map DemoRecord.reach).sum = u.reach)
    (hpos : ∀ u ∈ units, 0 < u.reach) :
    (demo.map (adj_demo_reach units)).sum = cur_reach units := by
  have hcomplete : ∀ d ∈ demo, d.ftr_idn ∈ units.map UnitRow.ftr_idn := by
    intro d hd
    obtain ⟨u, hu, he⟩ := hjoin d hd
    exact he ▸ List.mem_map_of_mem UnitRow.ftr_idn hu
  have h1 := sum_fibers (units.map UnitRow.ftr_idn) DemoRecord.ftr_idn (adj_demo_reach units)
    demo hnd hcomplete
  rw [← h1, List.map_map]
  unfold cur_reach
  apply congrArg List.sum
  apply List.map_congr_left
  intro u hu
  have hfind := find_unit_of_nodup units u hnd hu
  have hratio : ∀ d ∈ demo.filter fun d => decide (d.ftr_idn = u.ftr_idn),
      adj_demo_reach units d = DemoRecord.reach d * calc_ratio_val u := by
    intro d hd
    obtain ⟨_, hdu⟩ := List.mem_filter.mp hd
    have hdu2 : d.ftr_idn = u.ftr_idn := of_decide_eq_true hdu
    unfold adj_demo_reach ratio_of
    rw [hdu2, hfind]
  calc ((demo.filter fun d => decide (d.ftr_idn = u.ftr_idn)).map (adj_demo_reach units)).sum
      = ((demo.filter fun d => decide (d.ftr_idn = u.ftr_idn)).map
          fun d => DemoRecord.reach d * calc_ratio_val u).sum := by
        rw [List.map_congr_left hratio]
    _ = ((demo.filter fun d => decide (d.ftr_idn = u.ftr_idn)).map DemoRecord.reach).sum
          * calc_ratio_val u := sum_map_mul_const _ _ _
    _ = u.reach * calc_ratio_val u := by rw [hsum u hu]
    _ = u.adj_reach := by
        unfold calc_ratio_val
        rw [if_pos (hpos u hu), mul_comm, div_mul_cancel₀ _ (ne_of_gt (hpos u hu))]

/-- Maximum computed by a left fold is the start value or a list element. -/
lemma foldl_max_mem (l : List ℤ) (a : ℤ) : l.foldl max a = a ∨ l.foldl max a ∈ l := by
  induction l generalizing a with
  | nil => left; rfl
  | cons b bs ih =>
    rcases ih (max a b) with h | h
    · rcases max_choice a b with hab | hab
      · left; rw [List.foldl_cons, h, hab]
      · right; rw [List.foldl_cons, h, hab]; exact List.mem_cons_self b bs
    · right
      rw [List.foldl_cons]
      exact List.mem_cons_of_mem b h

/-- The maximum quantity of a nonempty correction table is the quantity of one
of its rows. -/
lemma maxQty_mem (factor : List FactorRow) (m : ℤ) (h : maxQty factor = some m) :
    m ∈ factor.map FactorRow.quantity := by
  cases factor with
  | nil => cases h
  | cons r rs =>
    unfold maxQty at h
    injection h with h
    rcases foldl_max_mem (rs.map FactorRow.quantity) r.quantity with h2 | h2
    · rw [← h, h2]
      exact List.mem_cons_self _ _
    · rw [← h]
      exact List.mem_cons_of_mem _ h2

/-- C2 counterexample: a unit in scope of the claim (digital package,
stay_time present, mode default, `share_of_time` missing) is NOT returned
unchanged: the digital formula is applied to the NaN share and both adjusted
metrics come out NaN (`none`), not the raw `(rots, reach)`. -/
theorem missing_share_counterexample :
    calculate_metrics_row Mode.default c2row = (none, none)
    ∧ calculate_metrics_row Mode.default c2row ≠ (some c2row.rots, some c2row.reach) := by
  constructor
  · simp +decide [calculate_metrics_row, c2row]
  · simp +decide [calculate_metrics_row, c2row]

/-- C2 (amended): for every unit where the digital-sharing formula applies,
stay_time is present, the mode is default, and `share_of_time` is absent, the
adjuster still applies the digital formula, so both adjusted metrics are NaN
(`none`) instead of the raw values; the raw pass-through happens only when
`stay_time` is absent. -/
theorem missing_share_applies_formula (row : MediaRow) (st : ℚ)
    (hA : ¬ (row.shelter_type = "관광안내판" ∧ row.media_type = "포스터"))
    (hdig : row.package_type.getD "P" = "D" ∨ row.media_type = "디지털")
    (hstay : row.stay_time = some st)
    (hshare : row.share_of_time = none) :
    calculate_metrics_row Mode.default row = (none, none) := by
  simp [calculate_metrics_row, hA, hdig, hstay, hshare]

/-- Witness for the amended C2 theorem at the concrete row `c2row`. -/
theorem missing_share_applies_formula_witness :
    calculate_metrics_row Mode.default c2row = (none, none) :=
  missing_share_applies_formula c2row 5 (by decide) (Or.inl rfl) rfl rfl

/-- C3: wherever the digital-sharing formula fires (mode allows it, the
tourist-panel exception does not apply, the unit is digitally packaged or a
digital medium, stay_time is present and the share used is defined), the two
adjusted metrics scale their raw counterparts by the identical factor
`time_factor * share * 0.5`, so `adj_reach / reach = adj_rots / rots`. -/
theorem adjustment_ratio_metric_independent (mode : Mode) (row : MediaRow) (st s : ℚ)
    (hmode : mode ≠ Mode.noDigitalFormula)
    (hA : ¬ (row.shelter_type = "관광안내판" ∧ row.media_type = "포스터"))
    (hdig : row.package_type.getD "P" = "D" ∨ row.media_type = "디지털")
    (hstay : row.stay_time = some st)
    (hshare : (if mode = Mode.digitalFullSlot then some 0.05 else row.share_of_time) = some s)
    (hrots : 0 < row.rots) (hreach : 0 < row.reach) :
    ∃ ar ae, calculate_metrics_row mode row = (some ar, some ae) ∧
      ae / row.reach = ar / row.rots ∧ ar / row.rots = time_factor st * s * 0.5 := by
  refine ⟨time_factor st * row.rots * s * 0.5, time_factor st * row.reach * s * 0.5, ?_, ?_, ?_⟩
  · simp [calculate_metrics_row, hmode, hA, hdig, hstay, hshare]
  · rw [div_eq_div_iff (ne_of_gt hreach) (ne_of_gt hrots)]
    ring
  · rw [div_eq_iff (ne_of_gt hrots)]
    ring

/-- Witness for C3 at the concrete row `c3row` in mode default. -/
theorem adjustment_ratio_metric_independent_witness :
    ∃ ar ae, calculate_metrics_row Mode.default c3row = (some ar, some ae) ∧
      ae / c3row.reach = ar / c3row.rots ∧ ar / c3row.rots = time_factor 10 * 0.2 * 0.5 :=
  adjustment_ratio_metric_independent Mode.default c3row 10 0.2 (by decide) (by decide)
    (Or.inl rfl) rfl rfl (by norm_num [c3row]) (by norm_num [c3row])

/-- C4: a tourist-info-panel (`관광안내판`) poster unit is halved in every mode
other than no-digital-formula, whatever its package_type, stay_time and
share_of_time are — the exception takes precedence over the digital branch. -/
theorem tourist_panel_precedence (mode : Mode) (row : MediaRow)
    (hmode : mode ≠ Mode.noDigitalFormula)
    (hs : row.shelter_type = "관광안내판") (hm : row.media_type = "포스터") :
    calculate_metrics_row mode row = (some (row.rots / 2), some (row.reach / 2)) := by
  simp [calculate_metrics_row, hmode, hs, hm]

/-- Witness for C4: `c4row` would qualify for the digital formula (package
`"D"`, stay_time present) and the mode is digital-full-slot, yet the result is
the halved raw pair. -/
theorem tourist_panel_precedence_witness :
    calculate_metrics_row Mode.digitalFullSlot c4row
      = (some (c4row.rots / 2), some (c4row.reach / 2)) :=
  tourist_panel_precedence Mode.digitalFullSlot c4row (by decide) rfl rfl

/-- C5: a package name present in the named-weight table forces that fixed
correction factor for every positive selection size and every correction
table — the quantity lookup is bypassed entirely. -/
theorem named_package_override (factor : List FactorRow) (n : ℕ) (name : String) (w : ℚ)
    (hn : 0 < n) (hw : namedWeightOf name = some w) :
    resolve_correction factor (some name) n = w := by
  have hn0 : ¬ (n = 0) := Nat.pos_iff_ne_zero.mp hn
  simp [resolve_correction, hn0, hw]

/-- Witness for C5: package `"강남D"` resolves to 0.5430 even though the table
`w5factor` has a row for the selection size 3 (with factor 0.9). -/
theorem named_package_override_witness :
    resolve_correction w5factor (some "강남D") 3 = 0.5430 :=
  named_package_override w5factor 3 "강남D" 0.5430 (by decide)
    (by norm_num [namedWeightOf, region_pkg_weights])

/-- C6: with no named-package override, a positive selection size strictly
above the table's maximum quantity resolves to the factor stored at that
maximum quantity — the lookup is capped, never extrapolated. -/
theorem correction_factor_capped (factor : List FactorRow) (n : ℕ) (m : ℤ)
    (hmax : maxQty factor = some m) (hlt : m < (n : ℤ)) (hn : 0 < n) :
    ∃ r ∈ factor, r.quantity = m ∧ resolve_correction factor none n = r.correction_factor := by
  have hn0 : ¬ (n = 0) := Nat.pos_iff_ne_zero.mp hn
  have hmin : min (n : ℤ) m = m := min_eq_right (le_of_lt hlt)
  obtain ⟨r0, hr0, hq0⟩ := List.mem_map.mp (maxQty_mem factor m hmax)
  cases hf : factor.find? fun r => decide (r.quantity = min (n : ℤ) m) with
  | none =>
    exfalso
    have hnone := List.find?_eq_none.mp hf r0 hr0
    simp [hmin, hq0] at hnone
  | some r =>
    have hq : r.quantity = m := by
      have := List.find?_some hf
      simpa [hmin] using this
    refine ⟨r, List.mem_of_find?_eq_some hf, hq, ?_⟩
    simp [resolve_correction, hn0, hmax, hf]

/-- Witness for C6: selection size 5 exceeds the maximal calibrated quantity 3
of `w6factor` and resolves to the factor stored there. -/
theorem correction_factor_capped_witness :
    ∃ r ∈ w6factor, r.quantity = 3 ∧
      resolve_correction w6factor none 5 = r.correction_factor :=
  correction_factor_capped w6factor 5 3 (by decide) (by decide) (by decide)

/-- C7: the resolver returns 0 for an empty selection (any package option,
any table), and returns 0 when the capped lookup quantity has no exact row in
the table (a gap); being a total function, it raises no exception in either
case. -/
theorem resolver_degenerate_and_gap (factor : List FactorRow) (pkgOpt : Option String)
    (n : ℕ) (m : ℤ)
    (hmax : maxQty factor = some m)
    (hgap : factor.find? (fun r => decide (r.quantity = min (n : ℤ) m)) = none)
    (hn : n ≠ 0) :
    resolve_correction factor pkgOpt 0 = 0 ∧ resolve_correction factor none n = 0 := by
  constructor
  · simp [resolve_correction]
  · simp [resolve_correction, hn, hmax, hgap]

/-- Witness for C7: `w7factor` has quantities 1 and 4 but no row at the capped
lookup quantity 2, so a selection of size 2 resolves to 0; the degenerate size
0 resolves to 0 as well. -/
theorem resolver_degenerate_and_gap_witness :
    resolve_correction w7factor (some "강남D") 0 = 0
    ∧ resolve_correction w7factor none 2 = 0 :=
  resolver_degenerate_and_gap w7factor (some "강남D") 2 4 (by decide) (by decide) (by decide)

/-- C8: frequency is the guarded quotient `cur_rots / final_cur_reach` when
the corrected reach total is positive and 0 otherwise; in particular, for an
empty selection the resolver gives factor 0, the corrected reach total is 0
and the frequency is 0 — never a division fault. -/
theorem frequency_guarded (units : List UnitRow) (corr : ℚ) (factor : List FactorRow)
    (pkgOpt : Option String) :
    (0 < final_cur_reach units corr →
      freq units corr = cur_rots units / final_cur_reach units corr)
    ∧ (¬ 0 < final_cur_reach units corr → freq units corr = 0)
    ∧ resolve_correction factor pkgOpt 0 = 0
    ∧ freq [] (resolve_correction factor pkgOpt 0) = 0 := by
  refine ⟨fun h => if_pos h, fun h => if_neg h, by simp [resolve_correction], ?_⟩
  have h0 : final_cur_reach [] (resolve_correction factor pkgOpt 0) = 0 := by
    simp [final_cur_reach, cur_reach]
  simp [freq, h0]

/-- Witness for C8 on the one-unit selection `w8units` (corrected reach 4,
frequency 20/4) and on the empty selection. -/
theorem frequency_guarded_witness :
    freq w8units (1/2) = cur_rots w8units / final_cur_reach w8units (1/2)
    ∧ freq [] (resolve_correction [] none 0) = 0 :=
  ⟨(frequency_guarded w8units (1/2) [] none).1 (by norm_num [final_cur_reach, cur_reach, w8units]),
   (frequency_guarded [] 0 [] none).2.2.2⟩

/-- C9: the spec's numeric scenario: raw_rots 1000, raw_reach 500, stay_time
10, share_of_time 0.2, package "D": mode default gives (130, 65) with
time_factor 1.3, and mode digital-full-slot forces share 0.05 giving
(32.5, 16.25). -/
theorem digital_formula_scenario :
    calculate_metrics_row Mode.default scenario_row = (some 130, some 65)
    ∧ calculate_metrics_row Mode.digitalFullSlot scenario_row = (some 32.5, some 16.25) := by
  constructor
  · simp +decide [calculate_metrics_row, scenario_row, time_factor]
    norm_num
  · simp +decide [calculate_metrics_row, scenario_row, time_factor]
    norm_num

/-- C10: in digital-full-slot mode the adjuster never reads `share_of_time`:
overwriting that field with any value (including absent) leaves both adjusted
metrics unchanged. -/
theorem full_slot_share_insensitive (row : MediaRow) (s : Option ℚ) :
    calculate_metrics_row Mode.digitalFullSlot { row with share_of_time := s } =
      calculate_metrics_row Mode.digitalFullSlot row := by
  cases row
  simp [calculate_metrics_row]

/-- C1: reconciliation invariant of the Demographic Allocator: with
duplicate-free unit ids, every in-scope demographic record joining to a
displayed unit, per-unit demographic reach rows summing to that unit's raw
reach, and every unit carrying a genuinely computed ratio (positive raw
reach), the sum over the gender groups — and equally over the age groups — of
the corrected group reach equals the displayed-subset top-line corrected
reach.  In this exact-rational model the equality is exact. -/
theorem demo_reconciliation (units : List UnitRow) (demo : List DemoRecord) (corr : ℚ)
    (hnd : (units.map UnitRow.ftr_idn).Nodup)
    (hjoin : ∀ d ∈ demo, ∃ u ∈ units, u.ftr_idn = d.ftr_idn)
    (hsum : ∀ u ∈ units,
      ((demo.filter fun d => decide (d.ftr_idn = u.ftr_idn)).map DemoRecord.reach).sum = u.reach)
    (hpos : ∀ u ∈ units, 0 < u.reach) :
    ((gender_summ_reach units demo corr).map Prod.snd).sum = final_cur_reach units corr
    ∧ ((age_summ_reach units demo corr).map Prod.snd).sum = final_cur_reach units corr := by
  have htot := total_adj_demo_reach units demo hnd hjoin hsum hpos
  constructor
  · have h2 := sum_fibers ((demo.map DemoRecord.gender).dedup) DemoRecord.gender
      (adj_demo_reach units) demo (List.nodup_dedup _)
      (fun d hd => List.mem_dedup.mpr (List.mem_map_of_mem _ hd))
    unfold gender_summ_reach final_cur_reach
    rw [List.map_map]
    show ((demo.map DemoRecord.gender).dedup.map fun g =>
      ((demo.filter fun d => decide (d.gender = g)).map (adj_demo_reach units)).sum * corr).sum
      = cur_reach units * corr
    rw [sum_map_mul_const, h2, htot]
  · have h2 := sum_fibers ((demo.map DemoRecord.age).dedup) DemoRecord.age
      (adj_demo_reach units) demo (List.nodup_dedup _)
      (fun d hd => List.mem_dedup.mpr (List.mem_map_of_mem _ hd))
    unfold age_summ_reach final_cur_reach
    rw [List.map_map]
    show ((demo.map DemoRecord.age).dedup.map fun a =>
      ((demo.filter fun d => decide (d.age = a)).map (adj_demo_reach units)).sum * corr).sum
      = cur_reach units * corr
    rw [sum_map_mul_const, h2, htot]

/-- Witness for C1: one unit with raw reach 100 and adjusted reach 80 (ratio
0.8), two demographic rows (60 + 40 = 100), correction factor 0.5: both group
breakdowns sum to the corrected top-line reach 40. -/
theorem demo_reconciliation_witness :
    ((gender_summ_reach w1units w1demo 0.5).map Prod.snd).sum = final_cur_reach w1units 0.5
    ∧ ((age_summ_reach w1units w1demo 0.5).map Prod.snd).sum = final_cur_reach w1units 0.5 :=
  demo_reconciliation w1units w1demo 0.5 (by decide) (by decide)
    (by norm_num [w1units, w1demo]) (by norm_num [w1units])
